import Mathlib

-- Verification of the firefighter-reports pipeline (src/app/runner.py,
-- src/app/slack_service.py, src/app/summarizer.py, src/app/cache.py).
-- The Python code is shallowly embedded: JSON/Python values become the
-- inductive Json below, external collaborators (Slack API, Redis, the LLM)
-- become explicit oracles passed as function arguments, and exceptional
-- control flow becomes Except results.

namespace Firefighter

/-- JSON values as exchanged with the Slack API and the cache.  Numbers are
modelled as integers, which covers every number the claims touch. -/
inductive Json where
  | str : String → Json
  | num : Int → Json
  | bool : Bool → Json
  | null : Json
  | arr : List Json → Json
  | obj : List (String × Json) → Json

/-- Key lookup in a JSON object body (first match; object keys are unique in
payloads produced by the sources). -/
def lookupKV : List (String × Json) → String → Option Json
  | [], _ => none
  | (k, v) :: rest, key => if k = key then some v else lookupKV rest key

/-- Models the Python dict method item.get(key).  The source raises
AttributeError when the receiver is not a dict; the claims only exercise
dict receivers, and the one place where a non-dict receiver changes the
result (the channel field of a search match) is modelled explicitly in
classifyItem below. -/
def jGet : Json → String → Option Json
  | .obj kvs, k => lookupKV kvs k
  | _, _ => none

/-- Python truthiness of a JSON value: empty string, zero, False, None,
empty list and empty dict are falsy. -/
def truthyJ : Json → Bool
  | .str s => !s.isEmpty
  | .num n => !(n == 0)
  | .bool b => b
  | .null => false
  | .arr l => !l.isEmpty
  | .obj l => !l.isEmpty

/-- Truthiness of an optional value, where absence (Python None from
dict.get) is falsy. -/
def truthyO : Option Json → Bool
  | none => false
  | some v => truthyJ v

/-- Python `a or b`: the left operand when truthy, otherwise the right
operand (which is returned whether or not it is truthy). -/
def pyOr (a b : Option Json) : Option Json :=
  if truthyO a then a else b

/-- Models Python str(v).  The sources only apply it to values that are
already strings; the remaining cases are a fixed rendering so the function
stays total. -/
def jStr : Json → String
  | .str s => s
  | .num n => toString n
  | .bool b => if b then "True" else "False"
  | .null => "None"
  | .arr _ => "<list>"
  | .obj _ => "<dict>"

/-- Substring test: Python `needle in hay`. -/
def containsSub (hay needle : String) : Bool :=
  (List.range (hay.data.length + 1)).any (fun i => needle.data.isPrefixOf (hay.data.drop i))

/-- The whitespace characters Python str.strip() removes, restricted to
the ASCII whitespace the sources can produce. -/
def pyWs (c : Char) : Bool :=
  c = ' ' ∨ c = '\t' ∨ c = '\n' ∨ c = '\r' ∨ c = '\x0b' ∨ c = '\x0c'

/-- Python str.strip() with no arguments (whitespace at both ends). -/
def pyStrip (s : String) : String :=
  String.mk (((s.data.dropWhile pyWs).reverse.dropWhile pyWs).reverse)

/-- Python str.startswith(p). -/
def pyStartsWith (s p : String) : Bool := p.data.isPrefixOf s.data

/-- ASCII lowercase of one character, modelling str.lower() on the
characters the placeholder scan compares. -/
def lowerChar (c : Char) : Char :=
  if 65 ≤ c.toNat ∧ c.toNat ≤ 90 then Char.ofNat (c.toNat + 32) else c

/-- Python str.lower() restricted to ASCII letters. -/
def pyLower (s : String) : String := String.mk (s.data.map lowerChar)

/-- Collapses a CRLF pair to a single newline so that line splitting can be
done on single characters, matching Python splitlines on the line endings
the sources can see. -/
def normNewlines : List Char → List Char
  | [] => []
  | [c] => [c]
  | c1 :: c2 :: rest =>
    if c1 = '\r' ∧ c2 = '\n' then '\n' :: normNewlines rest
    else c1 :: normNewlines (c2 :: rest)

/-- Splitter for Python str.splitlines semantics on newline-normalised text:
a trailing line break introduces no empty final line. -/
def splitOnNl : List Char → List Char → List (List Char)
  | cur, [] => [cur.reverse]
  | cur, c :: rest =>
    if c = '\n' ∨ c = '\r' then
      cur.reverse :: (match rest with | [] => [] | _ :: _ => splitOnNl [] rest)
    else splitOnNl (c :: cur) rest

/-- Python str.splitlines() restricted to the \n, \r\n and \r line endings
(the only ones the summarizer sources can produce). -/
def pySplitlines (s : String) : List String :=
  match s.data with
  | [] => []
  | cs => (splitOnNl [] (normNewlines cs)).map (fun l => String.mk l)

/- ===================== cache.py ===================== -/

-- Cache.get_json / Cache.set_json over the Redis store, restricted to the
-- thread-summary key space used by the pipeline, whose stored payloads are
-- JSON-serialised block lists.  A malformed stored payload is read back as
-- None by get_json, which the model folds into key absence.

/-- Cache.get_json: first matching entry, None when absent. -/
def lookupCache : List (String × List Json) → String → Option (List Json)
  | [], _ => none
  | (k, v) :: rest, key => if k = key then some v else lookupCache rest key

/-- Cache.set_json: overwrite the entry for the key, inserting when new.
The TTL argument of the source only bounds entry lifetime and is not part
of the value model (a live entry is an unexpired one). -/
def setCache : List (String × List Json) → String → List Json → List (String × List Json)
  | [], key, v => [(key, v)]
  | (k, w) :: rest, key, v =>
    if k = key then (key, v) :: rest else (k, w) :: setCache rest key v

/-- Truthiness of the value run_pipeline reads back from the summary
cache: the `if cached:` test of the source is true exactly for a present,
non-empty block list. -/
def truthyCached : Option (List Json) → Bool
  | some (_ :: _) => true
  | _ => false

/- ===================== summarizer.py ===================== -/

/-- Summarizer._strip_code_fences: strip the text, and when it starts with a
fence, drop a leading fence line and a trailing fence line and re-strip. -/
def strip_code_fences (raw : String) : String :=
  let text := pyStrip raw
  if pyStartsWith text "```" then
    let lines0 := pySplitlines text
    let lines1 :=
      match lines0 with
      | l :: rest => if pyStartsWith l "```" then rest else lines0
      | [] => lines0
    let lines2 :=
      match lines1.getLast? with
      | some l => if pyStartsWith l "```" then lines1.dropLast else lines1
      | none => lines1
    pyStrip (String.intercalate "\n" lines2)
  else text

/-- Summarizer._parse_blocks: fence stripping followed by a structured
parse.  The parse argument models json.loads with its JSONDecodeError
handler already folded in: none is a failed parse. -/
def parse_blocks (parse : String → Option Json) (raw : String) : Option Json :=
  parse (strip_code_fences raw)

/-- The header block of the fallback result synthesised by
Summarizer.summarize for unusable model output. -/
def fallbackHeader (timestamp : String) : Json :=
  .obj [("type", .str "header"),
        ("text", .obj [("type", .str "plain_text"),
                       ("text", .str ("Firefighter " ++ timestamp))])]

/-- The section block of the fallback result synthesised by
Summarizer.summarize, carrying the stripped raw model output. -/
def fallbackSection (raw : String) : Json :=
  .obj [("type", .str "section"),
        ("text", .obj [("type", .str "mrkdwn"),
                       ("text", .str (pyStrip raw))])]

/-- Summarizer.summarize, from the model-output string onward: parse, then
dispatch on the shape of the parsed value exactly as the isinstance chain
of the source does. -/
def summarize (parse : String → Option Json) (timestamp : String) (raw : String) : List Json :=
  let parsed := parse_blocks parse raw
  match parsed with
  | some (.arr xs) => xs
  | some (.obj kvs) => [.obj kvs]
  | _ => [fallbackHeader timestamp, fallbackSection raw]

/- ===================== slack_service.py: search_messages ===================== -/

/-- One response of the paginated Slack search call: the match records of
the page and the total page count reported by the paging field (whose
absent-key default is 1 in the source). -/
structure SearchPage where
  pageMatches : List Json
  totalPages : Nat

/-- The page-fetching loop of SlackService.search_messages.  The platform
argument models user_client.search_messages for a fixed query and page
size (an error is a SlackApiError); the fuel argument counts the pages the
max_pages bound still allows, so fuel = 20 and page = 1 at entry; the
returned number counts the requests issued.  The human filter is the
_is_human_message predicate, abstracted to a pure function. -/
def searchGo (platform : Nat → Except String SearchPage) (isHuman : Json → Bool)
    (limit : Nat) : Nat → Nat → List Json → Except String (List Json × Nat)
  | 0, _, acc => .ok (acc, 0)
  | fuel + 1, page, acc =>
    if acc.length < limit then
      match platform page with
      | .error e => .error ("Slack search failed: " ++ e)
      | .ok r =>
        let acc2 := acc ++ r.pageMatches.filter isHuman
        if r.totalPages ≤ page then .ok (acc2, 1)
        else (fun p => (p.1, p.2 + 1)) <$> searchGo platform isHuman limit fuel (page + 1) acc2
    else .ok (acc, 0)

/-- SlackService.search_messages: run the paginated loop from page 1 under
the max_pages = 20 cap and truncate the accumulated matches to the limit. -/
def search_messages (platform : Nat → Except String SearchPage) (isHuman : Json → Bool)
    (limit : Nat) : Except String (List Json) :=
  (fun p => p.1.take limit) <$> searchGo platform isHuman limit 20 1 []

/-- Accumulation of the human-filtered matches of pages start, start+1, ...
over a total platform, used to state what searchGo accumulates. -/
def segAcc (pages : Nat → SearchPage) (isHuman : Json → Bool) : Nat → Nat → List Json
  | _, 0 => []
  | start, k + 1 => (pages start).pageMatches.filter isHuman ++ segAcc pages isHuman (start + 1) k

/- ===================== slack_service.py: post_blocks ===================== -/

/-- A SlackApiError as observed by post_blocks: the machine-readable error
code of exc.response (none when the response is falsy or carries no error
key) and the rendering str(exc) interpolated into the raised messages. -/
structure SlackErr where
  errorCode : Option String
  msg : String

/-- The platform calls one invocation of post_blocks can make: the first
chat_postMessage attempt, the conversations_join attempt, and the retried
chat_postMessage after the join. -/
structure PostEnv where
  post1 : Except SlackErr Unit
  joinAttempt : Except SlackErr Unit
  post2 : Except SlackErr Unit

/-- The message of the RuntimeError raised when the join-then-retry
recovery path of post_blocks fails. -/
def joinFailMsg (channel_id excMsg : String) : String :=
  "Slack post failed: Could not join channel " ++ channel_id ++
    ". Please invite the bot to the channel. Error: " ++ excMsg

/-- SlackService.post_blocks.  The returned number counts the
chat_postMessage calls made, so the retry discipline is observable. -/
def post_blocks (pe : PostEnv) (channel_id : String) (blocks : List Json) :
    Except String Unit × Nat :=
  if blocks.isEmpty then (.ok (), 0)
  else
    match pe.post1 with
    | .ok _ => (.ok (), 1)
    | .error exc =>
      if exc.errorCode = some "not_in_channel" then
        match pe.joinAttempt with
        | .error join_exc => (.error (joinFailMsg channel_id join_exc.msg), 1)
        | .ok _ =>
          match pe.post2 with
          | .ok _ => (.ok (), 2)
          | .error join_exc => (.error (joinFailMsg channel_id join_exc.msg), 2)
      else (.error ("Slack post failed: " ++ exc.msg), 1)

/-- SlackService.post_blocks_in_thread: identical recovery policy, with the
thread-posting call and its distinct generic error message. -/
def post_blocks_in_thread (pe : PostEnv) (channel_id : String) (blocks : List Json) :
    Except String Unit × Nat :=
  if blocks.isEmpty then (.ok (), 0)
  else
    match pe.post1 with
    | .ok _ => (.ok (), 1)
    | .error exc =>
      if exc.errorCode = some "not_in_channel" then
        match pe.joinAttempt with
        | .error join_exc => (.error (joinFailMsg channel_id join_exc.msg), 1)
        | .ok _ =>
          match pe.post2 with
          | .ok _ => (.ok (), 2)
          | .error join_exc => (.error (joinFailMsg channel_id join_exc.msg), 2)
      else (.error ("Slack post in thread failed: " ++ exc.msg), 1)

/- ===================== slack_service.py: parse_permalink ===================== -/

/-- The character class [A-Z0-9] of the channel group of the permalink
regular expression. -/
def isChanChar (c : Char) : Bool := c.isUpper || c.isDigit

/-- Literal-prefix matcher: consume the given literal characters from the
front of the input, or fail. -/
def dropLit : List Char → List Char → Option (List Char)
  | [], cs => some cs
  | _ :: _, [] => none
  | p :: ps, c :: cs => if c = p then dropLit ps cs else none

/-- The literal part of the permalink pattern before the channel group. -/
def archLit : List Char := "/archives/".data

/-- Attempt of the regular expression /archives/([A-Z0-9]+)/p(\d+) at one
start position: the literal, then the maximal channel-class run (greedy,
and no backtracking is possible because the slash that must follow is not
in the class), then the literal /p, then the maximal digit run of which at
least one digit must exist.  The digit class is modelled as ASCII digits. -/
def matchArchAt (cs : List Char) : Option (List Char × List Char) :=
  (dropLit archLit cs).bind (fun rest =>
    if (rest.takeWhile isChanChar).isEmpty then none
    else
      (dropLit ['/', 'p'] (rest.dropWhile isChanChar)).bind (fun rest2 =>
        if (rest2.takeWhile Char.isDigit).isEmpty then none
        else some (rest.takeWhile isChanChar, rest2.takeWhile Char.isDigit)))

/-- re.search over the permalink pattern: try every start position from the
left and return the first (leftmost) match. -/
def searchArch : List Char → Option (List Char × List Char)
  | [] => none
  | c :: cs =>
    match matchArchAt (c :: cs) with
    | some r => some r
    | none => searchArch cs

/-- SlackService.parse_permalink: regex search, then reassemble the dotted
timestamp as the first ten digits, a dot, and the remaining digits. -/
def parse_permalink (permalink : String) : Option (String × String) :=
  match searchArch permalink.data with
  | none => none
  | some (chan, ds) =>
    some (String.mk chan, String.mk (ds.take 10) ++ "." ++ String.mk (ds.drop 10))

/-- The shape the spec says parse_permalink recognises, stated
independently of the matcher: somewhere in the input, the /archives/
literal, a non-empty channel-class run, the /p literal, and at least one
digit. -/
def ShapePresent (s : String) : Prop :=
  ∃ pre chan ds post,
    s.data = pre ++ archLit ++ chan ++ ['/', 'p'] ++ ds ++ post ∧
    chan ≠ [] ∧ (∀ c ∈ chan, isChanChar c = true) ∧
    ds ≠ [] ∧ (∀ c ∈ ds, c.isDigit = true)

/- ===================== runner.py ===================== -/

/-- A thread candidate as assembled by run_pipeline discovery: channel id,
thread root timestamp (which also determines the display date derived from
it) and the fetched message sequence. -/
structure Thread where
  channel_id : String
  thread_ts : String
  messages : List Json

/-- The external collaborators of one pipeline run, fixed for the run.
search models SlackService.search_messages (already including its failure
mode), fetch models fetch_thread, permalinkOf models get_permalink (which
swallows errors into None), userName models resolve_user_name (which never
fails), post models post_blocks, tsEpoch models ts_to_datetime restricted
to the order comparison against the cutoff (epoch seconds), fmtDate models
strftime of the derived datetime, and summarizeBlocks models
Summarizer.summarize applied to (display date, transcript, participants). -/
structure SlackEnv where
  search : String → Nat → Except String (List Json)
  fetch : String → String → Except String (List Json)
  permalinkOf : String → String → Option String
  userName : String → String
  post : String → List Json → Except String Unit
  tsEpoch : String → Int
  fmtDate : String → String
  summarizeBlocks : String → String → List String → List Json

/-- The settings fields run_pipeline reads.  cutoff is the window lower
bound now - lookback_days at the start of the run, in epoch seconds;
max_threads = 0 models a falsy MAX_THREADS. -/
structure PipeSettings where
  search_query : String
  search_limit : Nat
  cutoff : Int
  max_threads : Nat
  thread_cache_ttl : Nat
  slack_channel_id : String
  dry_run : Bool

/-- Observable state of one run: the cache contents, whether Cache.close
ran, and two observation logs - the thread roots for which
Summarizer.summarize was invoked, and the summary block set the run used
for each processed thread candidate (in processing order). -/
structure RunState where
  cache : List (String × List Json)
  closed : Bool
  summarizeLog : List String
  usedLog : List (String × List Json)

/-- A run state at process start with a given persistent cache. -/
def freshState (cache : List (String × List Json)) : RunState :=
  ⟨cache, false, [], []⟩

/-- Insert-and-sort comparator for participant names. -/
def strLe (a b : String) : Bool := !(decide (b < a))

/-- Insertion into a sorted list, used to model Python sorted(...). -/
def insertSorted (x : String) : List String → List String
  | [] => [x]
  | y :: ys => if strLe x y then x :: y :: ys else y :: insertSorted x ys

/-- sorted(...) over strings. -/
def sortStrings (l : List String) : List String := l.foldr insertSorted []

/-- Set insertion building the participant set in encounter order before
sorting. -/
def addName (names : List String) (n : String) : List String :=
  if names.contains n then names else names ++ [n]

/-- One message of the transcript: the rendered line and, when the message
carries a string user id, the resolved participant name. -/
def msgLine (resolve : String → String) (m : Json) : String × Option String :=
  match jGet m "user" with
  | some (.str uid) =>
    let n := resolve uid
    (n ++ ": " ++ jStr ((jGet m "text").getD (.str "")), some n)
  | _ => ("Unknown" ++ ": " ++ jStr ((jGet m "text").getD (.str "")), none)

/-- runner.build_thread_text: transcript joined by the reply separator, and
the sorted participant set. -/
def build_thread_text (messages : List Json) (resolve : String → String) :
    String × List String :=
  let entries := messages.map (msgLine resolve)
  (String.intercalate "\nReply:\n" (entries.map (fun e => e.1)),
   sortStrings ((entries.filterMap (fun e => e.2)).foldl addName []))

/-- The cache key of a thread summary. -/
def summaryKey (ts : String) : String := "thread-summary:" ++ ts

/-- The summarizer output run_pipeline would obtain for a candidate on a
cache miss. -/
def summOut (env : SlackEnv) (t : Thread) : List Json :=
  let p := build_thread_text t.messages env.userName
  env.summarizeBlocks (env.fmtDate t.thread_ts) p.1 p.2

/-- The placeholder phrases of is_placeholder_thread. -/
def placeholder_patterns : List String :=
  ["placeholder/title only", "placeholder/title",
   "no thread messages provided beyond the title", "no thread messages provided"]

/-- The text a context element contributes to the placeholder scan: only
mrkdwn and plain_text elements contribute, lowercased. -/
def contextElementText (el : Json) : String :=
  match jGet el "type" with
  | some (.str t) =>
    if t = "mrkdwn" ∨ t = "plain_text" then
      match jGet el "text" with
      | some (.str s) => pyLower s
      | _ => ""
    else ""
  | _ => ""

/-- The text of the text sub-object of a section or header block: the
value of its text key when it is a string, lowercased, and the empty
default otherwise. -/
def textObjText (o : List (String × Json)) : String :=
  match lookupKV o "text" with
  | some (.str s) => pyLower s
  | _ => ""

/-- The text one block contributes to the placeholder scan, following the
if/elif chain of the source: section and header blocks contribute their
text sub-object when it is a dict, context blocks contribute their
qualifying elements, and every other block contributes nothing.  A block
whose type key matches but whose text or elements key is absent falls
through the chain and contributes nothing, as in the source. -/
def blockText (b : Json) : String :=
  match jGet b "type" with
  | some (.str "section") =>
    match jGet b "text" with
    | some (.obj o) => textObjText o
    | _ => ""
  | some (.str "header") =>
    match jGet b "text" with
    | some (.obj o) => textObjText o
    | _ => ""
  | some (.str "context") =>
    match jGet b "elements" with
    | some (.arr els) => String.join (els.map contextElementText)
    | _ => ""
  | _ => ""

/-- The all_text accumulation of is_placeholder_thread. -/
def collectText (blocks : List Json) : String :=
  String.join (blocks.map blockText)

/-- runner.is_placeholder_thread: some placeholder pattern occurs in the
collected lowercased text. -/
def is_placeholder_thread (blocks : List Json) : Bool :=
  placeholder_patterns.any (fun p => containsSub (collectText blocks) p)

/-- The View thread context block appended after a summary. -/
def viewThreadBlock (p : String) : Json :=
  .obj [("type", .str "context"),
        ("elements", .arr [.obj [("type", .str "mrkdwn"),
                                 ("text", .str ("<" ++ p ++ "|View thread>"))]])]

/-- The divider block appended after each digest entry. -/
def dividerBlock : Json := .obj [("type", .str "divider")]

/-- The fixed block posted when the assembled digest is empty. -/
def noThreadsBlock : Json :=
  .obj [("type", .str "section"),
        ("text", .obj [("type", .str "mrkdwn"),
                       ("text", .str "No firefighter threads found in the selected window.")])]

/-- The blocks the View thread link contributes: the context block only
when get_permalink produced a truthy (non-empty) permalink. -/
def permalinkPart : Option String → List Json
  | some p => if p.isEmpty then [] else [viewThreadBlock p]
  | none => []

/-- The digest contribution of one processed candidate (lines 160-169 of
runner.py): nothing for a placeholder summary, otherwise the summary
blocks, the optional View thread context block, and a divider. -/
def threadContribution (summary_blocks : List Json) (permalink : Option String) :
    List Json :=
  if is_placeholder_thread summary_blocks then []
  else summary_blocks ++ permalinkPart permalink ++ [dividerBlock]

/-- The per-thread enrichment and assembly loop of run_pipeline (lines
143-169): cache lookup, reuse on a truthy hit, summarize-and-store on a
miss, then the placeholder-filtered digest contribution.  The source
builds the transcript before the cache branch; the build is pure, so the
model builds it where it is consumed. -/
def enrich (env : SlackEnv) (st : PipeSettings) :
    List Thread → RunState → List Json → List Json × RunState
  | [], s, acc => (acc, s)
  | t :: rest, s, acc =>
    match lookupCache s.cache (summaryKey t.thread_ts) with
    | some (b :: bs) =>
      let sb := b :: bs
      let s1 : RunState := { s with usedLog := s.usedLog ++ [(t.thread_ts, sb)] }
      enrich env st rest s1
        (acc ++ threadContribution sb (env.permalinkOf t.channel_id t.thread_ts))
    | _ =>
      let sb := summOut env t
      let s1 : RunState :=
        { s with cache := setCache s.cache (summaryKey t.thread_ts) sb,
                 summarizeLog := s.summarizeLog ++ [t.thread_ts],
                 usedLog := s.usedLog ++ [(t.thread_ts, sb)] }
      enrich env st rest s1
        (acc ++ threadContribution sb (env.permalinkOf t.channel_id t.thread_ts))

/-- What window-mode discovery does with one search match before the
thread fetch: skip it (falsy or out-of-window timestamp, or a channel id
that is not a string), abort (the AttributeError the source raises when
the channel field is present but not a dict, or when the match itself is
not a dict), or fetch the identified thread. -/
inductive ItemStep where
  | skip
  | err (msg : String)
  | fetchThread (channel_id : String) (ts : String)

/-- Classification of one search match (lines 86-96 of runner.py). -/
def classifyItem (env : SlackEnv) (st : PipeSettings) (item : Json) : ItemStep :=
  match item with
  | .obj _ =>
    let ts? := pyOr (jGet item "thread_ts") (jGet item "ts")
    if truthyO ts? = false then .skip
    else
      let ts := jStr (ts?.getD .null)
      if env.tsEpoch ts < st.cutoff then .skip
      else
        match (jGet item "channel").getD (.obj []) with
        | .obj kvs =>
          match pyOr (lookupKV kvs "id") (pyOr (jGet item "channel") (jGet item "channel_id")) with
          | some (.str channel_id) => .fetchThread channel_id ts
          | _ => .skip
        | _ => .err "AttributeError: get on a non-dict channel value"
  | _ => .err "AttributeError: get on a non-dict search match"

/-- Window-mode discovery over the search matches: classify each match,
fetch the surviving ones, and keep only threads with at least two messages
(the source condition `not thread_messages or len < 2` collapses to the
length test).  A fetch failure aborts the run. -/
def windowThreads (env : SlackEnv) (st : PipeSettings) :
    List Json → Except String (List Thread)
  | [] => .ok []
  | item :: rest =>
    match classifyItem env st item with
    | .skip => windowThreads env st rest
    | .err e => .error e
    | .fetchThread channel_id ts =>
      match env.fetch channel_id ts with
      | .error e => .error e
      | .ok msgs =>
        if msgs.length < 2 then windowThreads env st rest
        else (fun tl => (⟨channel_id, ts, msgs⟩ : Thread) :: tl) <$> windowThreads env st rest

/-- The max_threads truncation (lines 110-111). -/
def truncThreads (st : PipeSettings) (threads : List Thread) : List Thread :=
  if st.max_threads ≠ 0 ∧ threads.length > st.max_threads
  then threads.take st.max_threads else threads

/-- The tail of run_pipeline shared by both modes: truncation, enrichment,
the empty-digest fallback block, the post, and - only when the post
returns - Cache.close. -/
def mainPhase (env : SlackEnv) (st : PipeSettings) (threads0 : List Thread)
    (s : RunState) : Except String Unit × RunState :=
  let threads := truncThreads st threads0
  let er := enrich env st threads s []
  let blocks := if er.1.isEmpty then [noThreadsBlock] else er.1
  match env.post st.slack_channel_id blocks with
  | .error e => (.error e, er.2)
  | .ok _ => (.ok (), { er.2 with closed := true })

/-- The window-mode discovery result, as a function of the run inputs. -/
def discoveredThreads (env : SlackEnv) (st : PipeSettings) :
    Except String (List Thread) :=
  match env.search st.search_query st.search_limit with
  | .error e => .error e
  | .ok ms => windowThreads env st ms

/-- runner.run_pipeline.  A raised ValueError or propagated RuntimeError is
an error result; the state records which effects had happened by then.
The constant-False dry-run branch of the source is kept: it would print
the resolved permalinks, close the cache and return. -/
def run_pipeline (env : SlackEnv) (st : PipeSettings) (dryRunArg : Option Bool)
    (permalink : Option String) (s : RunState) : Except String Unit × RunState :=
  let effectiveDryRun := dryRunArg.getD st.dry_run
  match permalink with
  | some plink =>
    match parse_permalink plink with
    | none => (.error ("Invalid permalink format: " ++ plink), s)
    | some (channel_id, message_ts) =>
      match env.fetch channel_id message_ts with
      | .error e => (.error e, s)
      | .ok msgs =>
        if msgs.isEmpty then
          (.error ("No messages found for permalink: " ++ plink), s)
        else mainPhase env st [⟨channel_id, message_ts, msgs⟩] s
  | none =>
    match env.search st.search_query st.search_limit with
    | .error e => (.error e, s)
    | .ok ms =>
      if false && effectiveDryRun then (.ok (), { s with closed := true })
      else
        match windowThreads env st ms with
        | .error e => (.error e, s)
        | .ok threads => mainPhase env st threads s

/- ===================== concrete instances for witnesses ===================== -/

/-- A search match record with a ts and a channel dict. -/
def mW : Json := .obj [("ts", .str "100"), ("channel", .obj [("id", .str "C1")])]

/-- A root message with an author. -/
def msgA : Json := .obj [("user", .str "U1"), ("text", .str "hi")]

/-- A reply without an author id. -/
def msgB : Json := .obj [("text", .str "yo")]

/-- A two-message thread. -/
def msgsW : List Json := [msgA, msgB]

/-- A non-placeholder summary block. -/
def okBlock : Json :=
  .obj [("type", .str "section"),
        ("text", .obj [("type", .str "mrkdwn"), ("text", .str "summary")])]

/-- A deterministic environment whose search finds one two-message thread
and whose summarizer returns one non-placeholder block. -/
def envW : SlackEnv :=
  { search := fun _ _ => .ok [mW]
    fetch := fun _ _ => .ok msgsW
    permalinkOf := fun _ _ => none
    userName := fun u => u
    post := fun _ _ => .ok ()
    tsEpoch := fun _ => 0
    fmtDate := fun _ => "2024-01-01"
    summarizeBlocks := fun _ _ _ => [okBlock] }

/-- envW with a summarizer that returns the empty block list (which the
source summarizer produces when the model returns an empty JSON array). -/
def envE : SlackEnv := { envW with summarizeBlocks := fun _ _ _ => [] }

/-- envW with a single-message thread fetch, for single-permalink mode. -/
def envS1 : SlackEnv := { envW with fetch := fun _ _ => .ok [msgA] }

/-- envW with an empty thread fetch, for single-permalink mode. -/
def envS0 : SlackEnv := { envW with fetch := fun _ _ => .ok [] }

/-- Settings under which the window keeps the envW thread and max_threads
is unset. -/
def stW : PipeSettings :=
  { search_query := "q", search_limit := 5, cutoff := 0, max_threads := 0,
    thread_cache_ttl := 60, slack_channel_id := "CCHAN", dry_run := false }

/-- The thread candidate envW discovery produces. -/
def tW : Thread := ⟨"C1", "100", msgsW⟩

/-- A summary block whose text contains a placeholder pattern but not the
spec phrase about thread messages. -/
def c3Blocks : List Json :=
  [.obj [("type", .str "section"),
         ("text", .obj [("type", .str "mrkdwn"),
                        ("text", .str "Placeholder/Title only")])]]

/-- A summary block carrying the no-thread-messages placeholder phrase. -/
def phBlocks : List Json :=
  [.obj [("type", .str "section"),
         ("text", .obj [("type", .str "mrkdwn"),
                        ("text", .str "No thread messages provided beyond the title.")])]]

/-- A post environment whose first post succeeds. -/
def peOk : PostEnv := ⟨.ok (), .ok (), .ok ()⟩

/-- The not-in-channel error. -/
def nicErr : SlackErr := ⟨some "not_in_channel", "not_in_channel"⟩

/-- A post environment recovered by the join-then-retry path. -/
def peNotIn : PostEnv := ⟨.error nicErr, .ok (), .ok ()⟩

/-- A post environment whose join attempt fails. -/
def peJoinFail : PostEnv := ⟨.error nicErr, .error ⟨some "is_archived", "join failed"⟩, .ok ()⟩

/-- A post environment whose retried post fails. -/
def peRetryFail : PostEnv := ⟨.error nicErr, .ok (), .error ⟨some "fatal_error", "retry failed"⟩⟩

/-- A post environment failing with an error other than not_in_channel,
whose rendering does not mention the channel. -/
def peBad : PostEnv := ⟨.error ⟨some "ratelimited", "ratelimited"⟩, .ok (), .ok ()⟩

/- ===================== helper lemmas: strings and cache ===================== -/

theorem summaryKey_inj {a b : String} (h : summaryKey a = summaryKey b) : a = b := by
  have h2 : ("thread-summary:" ++ a).data = ("thread-summary:" ++ b).data :=
    congrArg String.data h
  simp only [String.data_append] at h2
  exact String.ext (List.append_cancel_left h2)

theorem containsSub_append_middle (a b c : String) : containsSub (a ++ b ++ c) b = true := by
  unfold containsSub
  refine List.any_eq_true.mpr ⟨a.data.length, List.mem_range.mpr ?_, ?_⟩
  · simp only [String.data_append, List.length_append]
    omega
  · have hd : (a ++ b ++ c).data = a.data ++ (b.data ++ c.data) := by
      simp [String.data_append]
    rw [hd, List.drop_left]
    exact List.isPrefixOf_iff_prefix.mpr (List.prefix_append b.data c.data)

theorem lookupCache_setCache_self (c : List (String × List Json)) (k : String)
    (v : List Json) : lookupCache (setCache c k v) k = some v := by
  induction c with
  | nil => simp [setCache, lookupCache]
  | cons e rest ih =>
    by_cases h : e.1 = k
    · simp [setCache, h, lookupCache]
    · simp [setCache, h, lookupCache, ih]

theorem lookupCache_setCache_ne (c : List (String × List Json)) {k k' : String}
    (h : k ≠ k') (v : List Json) :
    lookupCache (setCache c k v) k' = lookupCache c k' := by
  induction c with
  | nil => simp [setCache, lookupCache, h]
  | cons e rest ih =>
    by_cases he : e.1 = k
    · simp [setCache, he, lookupCache, h]
    · simp [setCache, he, lookupCache, ih]

theorem lookupCache_append_left {l1 : List (String × List Json)} {k : String}
    {v : List Json} (h : lookupCache l1 k = some v) (l2 : List (String × List Json)) :
    lookupCache (l1 ++ l2) k = some v := by
  induction l1 with
  | nil => simp [lookupCache] at h
  | cons e rest ih =>
    by_cases he : e.1 = k
    · simp [lookupCache, he] at h ⊢; exact h
    · simp [lookupCache, he] at h ⊢; exact ih h

theorem lookupCache_append_right {l1 : List (String × List Json)} {k : String}
    (h : lookupCache l1 k = none) (l2 : List (String × List Json)) :
    lookupCache (l1 ++ l2) k = lookupCache l2 k := by
  induction l1 with
  | nil => simp
  | cons e rest ih =>
    by_cases he : e.1 = k
    · simp [lookupCache, he] at h
    · simp [lookupCache, he] at h ⊢; exact ih h

theorem lookupCache_eq_none {l : List (String × List Json)} {k : String}
    (h : ∀ e ∈ l, e.1 ≠ k) : lookupCache l k = none := by
  induction l with
  | nil => rfl
  | cons e rest ih =>
    have he : e.1 ≠ k := h e (by simp)
    simp [lookupCache, he]
    exact ih (fun x hx => h x (by simp [hx]))

theorem lookupCache_append_single_ne {l : List (String × List Json)} {k k' : String}
    (h : k' ≠ k) (v : List Json) :
    lookupCache (l ++ [(k', v)]) k = lookupCache l k := by
  cases hl : lookupCache l k with
  | some w => exact lookupCache_append_left hl _
  | none => rw [lookupCache_append_right hl]; simp [lookupCache, h]

theorem lookupCache_append_single_self {l : List (String × List Json)} {k : String}
    (h : lookupCache l k = none) (v : List Json) :
    lookupCache (l ++ [(k, v)]) k = some v := by
  rw [lookupCache_append_right h]; simp [lookupCache]

/- ===================== helper lemmas: the enrichment loop ===================== -/

theorem enrich_closed (env : SlackEnv) (st : PipeSettings) :
    ∀ (threads : List Thread) (s : RunState) (acc : List Json),
      (enrich env st threads s acc).2.closed = s.closed := by
  intro threads
  induction threads with
  | nil => intro s acc; rfl
  | cons t rest ih =>
    intro s acc
    rcases hc : lookupCache s.cache (summaryKey t.thread_ts) with _ | ⟨_ | ⟨b, bs⟩⟩ <;>
      simp only [enrich, hc] <;> rw [ih]

theorem enrich_cache_frame (env : SlackEnv) (st : PipeSettings) :
    ∀ (threads : List Thread) (s : RunState) (acc : List Json) (k : String),
      (∀ u ∈ threads, summaryKey u.thread_ts ≠ k) →
      lookupCache (enrich env st threads s acc).2.cache k = lookupCache s.cache k := by
  intro threads
  induction threads with
  | nil => intro s acc k _; rfl
  | cons t rest ih =>
    intro s acc k h
    have ht : summaryKey t.thread_ts ≠ k := h t (by simp)
    have hrest : ∀ u ∈ rest, summaryKey u.thread_ts ≠ k :=
      fun u hu => h u (by simp [hu])
    rcases hc : lookupCache s.cache (summaryKey t.thread_ts) with _ | ⟨_ | ⟨b, bs⟩⟩ <;>
      simp only [enrich, hc] <;> rw [ih _ _ _ hrest]
    · exact lookupCache_setCache_ne _ ht _
    · exact lookupCache_setCache_ne _ ht _

theorem enrich_usedLog_lookup (env : SlackEnv) (st : PipeSettings) :
    ∀ (threads : List Thread) (s : RunState) (acc : List Json) (k : String),
      (∀ u ∈ threads, u.thread_ts ≠ k) →
      lookupCache (enrich env st threads s acc).2.usedLog k = lookupCache s.usedLog k := by
  intro threads
  induction threads with
  | nil => intro s acc k _; rfl
  | cons t rest ih =>
    intro s acc k h
    have ht : t.thread_ts ≠ k := h t (by simp)
    have hrest : ∀ u ∈ rest, u.thread_ts ≠ k := fun u hu => h u (by simp [hu])
    rcases hc : lookupCache s.cache (summaryKey t.thread_ts) with _ | ⟨_ | ⟨b, bs⟩⟩ <;>
      simp only [enrich, hc] <;> rw [ih _ _ _ hrest] <;>
      exact lookupCache_append_single_ne ht _

theorem enrich_summLog_count (env : SlackEnv) (st : PipeSettings) :
    ∀ (threads : List Thread) (s : RunState) (acc : List Json) (x : String),
      (∀ u ∈ threads, u.thread_ts ≠ x) →
      (enrich env st threads s acc).2.summarizeLog.count x = s.summarizeLog.count x := by
  intro threads
  induction threads with
  | nil => intro s acc x _; rfl
  | cons t rest ih =>
    intro s acc x h
    have ht : t.thread_ts ≠ x := h t (by simp)
    have hrest : ∀ u ∈ rest, u.thread_ts ≠ x := fun u hu => h u (by simp [hu])
    rcases hc : lookupCache s.cache (summaryKey t.thread_ts) with _ | ⟨_ | ⟨b, bs⟩⟩ <;>
      simp only [enrich, hc] <;> rw [ih _ _ _ hrest]
    · simp [List.count_append, List.count_cons, ht]
    · simp [List.count_append, List.count_cons, ht]

/-- The per-thread behaviour of the enrichment loop when the processed
thread roots are pairwise distinct: a truthy cached entry is reused
verbatim with no summarizer call, and a falsy (absent or empty) entry
leads to exactly one summarizer call whose output is stored and used. -/
theorem enrich_spec (env : SlackEnv) (st : PipeSettings) :
    ∀ (threads : List Thread) (s : RunState) (acc : List Json) (t : Thread),
      t ∈ threads →
      (threads.map (fun u => u.thread_ts)).Nodup →
      (∀ e ∈ s.usedLog, e.1 ≠ t.thread_ts) →
      ((∀ b bs, lookupCache s.cache (summaryKey t.thread_ts) = some (b :: bs) →
          lookupCache (enrich env st threads s acc).2.cache (summaryKey t.thread_ts) = some (b :: bs) ∧
          lookupCache (enrich env st threads s acc).2.usedLog t.thread_ts = some (b :: bs) ∧
          (enrich env st threads s acc).2.summarizeLog.count t.thread_ts =
            s.summarizeLog.count t.thread_ts) ∧
       (truthyCached (lookupCache s.cache (summaryKey t.thread_ts)) = false →
          lookupCache (enrich env st threads s acc).2.cache (summaryKey t.thread_ts) =
            some (summOut env t) ∧
          lookupCache (enrich env st threads s acc).2.usedLog t.thread_ts =
            some (summOut env t) ∧
          (enrich env st threads s acc).2.summarizeLog.count t.thread_ts =
            s.summarizeLog.count t.thread_ts + 1)) := by
  intro threads
  induction threads with
  | nil => intro s acc t ht; simp at ht
  | cons u rest ih =>
    intro s acc t ht hnd hused
    have hndrest : (rest.map (fun w => w.thread_ts)).Nodup := by
      simpa using hnd.of_cons
    rcases List.mem_cons.mp ht with heq | htr
    · -- t is the head: its step decides everything, rest only frames
      subst heq
      have hkeys : ∀ w ∈ rest, w.thread_ts ≠ t.thread_ts := by
        intro w hw hcontra
        have : t.thread_ts ∈ rest.map (fun x => x.thread_ts) :=
          List.mem_map.mpr ⟨w, hw, hcontra⟩
        exact (List.nodup_cons.mp hnd).1 this
      have hkeys2 : ∀ w ∈ rest, summaryKey w.thread_ts ≠ summaryKey t.thread_ts :=
        fun w hw hc => hkeys w hw (summaryKey_inj hc)
      have husednone : lookupCache s.usedLog t.thread_ts = none :=
        lookupCache_eq_none hused
      constructor
      · intro b bs hc
        simp only [enrich, hc]
        refine ⟨?_, ?_, ?_⟩
        · rw [enrich_cache_frame env st rest _ _ _ hkeys2]; exact hc
        · rw [enrich_usedLog_lookup env st rest _ _ _ hkeys]
          exact lookupCache_append_single_self husednone _
        · rw [enrich_summLog_count env st rest _ _ _ hkeys]
      · intro hfalsy
        rcases hc : lookupCache s.cache (summaryKey t.thread_ts) with _ | ⟨_ | ⟨b, bs⟩⟩
        · simp only [enrich, hc]
          refine ⟨?_, ?_, ?_⟩
          · rw [enrich_cache_frame env st rest _ _ _ hkeys2]
            exact lookupCache_setCache_self _ _ _
          · rw [enrich_usedLog_lookup env st rest _ _ _ hkeys]
            exact lookupCache_append_single_self husednone _
          · rw [enrich_summLog_count env st rest _ _ _ hkeys]
            simp [List.count_append, List.count_cons]
        · simp only [enrich, hc]
          refine ⟨?_, ?_, ?_⟩
          · rw [enrich_cache_frame env st rest _ _ _ hkeys2]
            exact lookupCache_setCache_self _ _ _
          · rw [enrich_usedLog_lookup env st rest _ _ _ hkeys]
            exact lookupCache_append_single_self husednone _
          · rw [enrich_summLog_count env st rest _ _ _ hkeys]
            simp [List.count_append, List.count_cons]
        · rw [hc] at hfalsy; simp [truthyCached] at hfalsy
    · -- t is in the tail: the head step cannot touch the key of t
      have hne : u.thread_ts ≠ t.thread_ts := by
        intro hcontra
        have : u.thread_ts ∈ rest.map (fun x => x.thread_ts) :=
          List.mem_map.mpr ⟨t, htr, hcontra.symm⟩
        exact (List.nodup_cons.mp hnd).1 this
      have hkne : summaryKey u.thread_ts ≠ summaryKey t.thread_ts :=
        fun hc => hne (summaryKey_inj hc)
      rcases hc : lookupCache s.cache (summaryKey u.thread_ts) with _ | ⟨_ | ⟨b, bs⟩⟩ <;>
        simp only [enrich, hc]
      case none =>
        have ihs := ih
          { s with cache := setCache s.cache (summaryKey u.thread_ts) (summOut env u),
                   summarizeLog := s.summarizeLog ++ [u.thread_ts],
                   usedLog := s.usedLog ++ [(u.thread_ts, summOut env u)] }
          (acc ++ threadContribution (summOut env u) (env.permalinkOf u.channel_id u.thread_ts))
          t htr hndrest
          (by intro e he
              rcases List.mem_append.mp he with h1 | h2
              · exact hused e h1
              · simp at h2; subst h2; exact hne)
        rw [show lookupCache (setCache s.cache (summaryKey u.thread_ts) (summOut env u))
              (summaryKey t.thread_ts) = lookupCache s.cache (summaryKey t.thread_ts) from
            lookupCache_setCache_ne _ hkne _] at ihs
        have hcount : (s.summarizeLog ++ [u.thread_ts]).count t.thread_ts =
            s.summarizeLog.count t.thread_ts := by
          simp [List.count_append, List.count_cons, hne]
        constructor
        · intro b bs hcc
          obtain ⟨h1, h2, h3⟩ := ihs.1 b bs hcc
          exact ⟨h1, h2, by rw [h3]; exact hcount⟩
        · intro hfalsy
          obtain ⟨h1, h2, h3⟩ := ihs.2 hfalsy
          exact ⟨h1, h2, by rw [h3, hcount]⟩
      case some.nil =>
        have ihs := ih
          { s with cache := setCache s.cache (summaryKey u.thread_ts) (summOut env u),
                   summarizeLog := s.summarizeLog ++ [u.thread_ts],
                   usedLog := s.usedLog ++ [(u.thread_ts, summOut env u)] }
          (acc ++ threadContribution (summOut env u) (env.permalinkOf u.channel_id u.thread_ts))
          t htr hndrest
          (by intro e he
              rcases List.mem_append.mp he with h1 | h2
              · exact hused e h1
              · simp at h2; subst h2; exact hne)
        rw [show lookupCache (setCache s.cache (summaryKey u.thread_ts) (summOut env u))
              (summaryKey t.thread_ts) = lookupCache s.cache (summaryKey t.thread_ts) from
            lookupCache_setCache_ne _ hkne _] at ihs
        have hcount : (s.summarizeLog ++ [u.thread_ts]).count t.thread_ts =
            s.summarizeLog.count t.thread_ts := by
          simp [List.count_append, List.count_cons, hne]
        constructor
        · intro b bs hcc
          obtain ⟨h1, h2, h3⟩ := ihs.1 b bs hcc
          exact ⟨h1, h2, by rw [h3]; exact hcount⟩
        · intro hfalsy
          obtain ⟨h1, h2, h3⟩ := ihs.2 hfalsy
          exact ⟨h1, h2, by rw [h3, hcount]⟩
      case some.cons =>
        have ihs := ih
          { s with usedLog := s.usedLog ++ [(u.thread_ts, b :: bs)] }
          (acc ++ threadContribution (b :: bs) (env.permalinkOf u.channel_id u.thread_ts))
          t htr hndrest
          (by intro e he
              rcases List.mem_append.mp he with h1 | h2
              · exact hused e h1
              · simp at h2; subst h2; exact hne)
        exact ihs

/- ===================== helper lemmas: run_pipeline ===================== -/

theorem mainPhase_state (env : SlackEnv) (st : PipeSettings) (ths : List Thread)
    (s : RunState) :
    (mainPhase env st ths s).2.cache = (enrich env st (truncThreads st ths) s []).2.cache ∧
    (mainPhase env st ths s).2.usedLog = (enrich env st (truncThreads st ths) s []).2.usedLog ∧
    (mainPhase env st ths s).2.summarizeLog =
      (enrich env st (truncThreads st ths) s []).2.summarizeLog ∧
    ((mainPhase env st ths s).1 = .ok () → (mainPhase env st ths s).2.closed = true) ∧
    ((mainPhase env st ths s).1 ≠ .ok () → (mainPhase env st ths s).2.closed = s.closed) := by
  simp only [mainPhase]
  split
  · refine ⟨rfl, rfl, rfl, ?_, ?_⟩
    · intro h; cases h
    · intro _; exact enrich_closed env st _ _ _
  · refine ⟨rfl, rfl, rfl, ?_, ?_⟩
    · intro _; rfl
    · intro h; exact absurd rfl h

theorem run_pipeline_window_eq (env : SlackEnv) (st : PipeSettings) (d : Option Bool)
    (s : RunState) {ts0 : List Thread} (h : discoveredThreads env st = .ok ts0) :
    run_pipeline env st d none s = mainPhase env st ts0 s := by
  unfold discoveredThreads at h
  cases hs : env.search st.search_query st.search_limit with
  | error e => rw [hs] at h; cases h
  | ok ms =>
    rw [hs] at h
    simp only at h
    simp only [run_pipeline, hs, Bool.false_and, Bool.false_eq_true, if_false, h]

theorem mainPhase_close_iff (env : SlackEnv) (st : PipeSettings) (ths : List Thread)
    (s : RunState) (h0 : s.closed = false) :
    ((mainPhase env st ths s).2.closed = true ↔ (mainPhase env st ths s).1 = .ok ()) := by
  have hms := mainPhase_state env st ths s
  cases hres : (mainPhase env st ths s).1 with
  | ok u =>
    cases u
    simp only [hres, iff_true]
    exact hms.2.2.2.1 hres
  | error e =>
    have hcl := hms.2.2.2.2 (by rw [hres]; intro hcontra; cases hcontra)
    rw [hcl, h0]
    simp

/-- C2 (amended): run_pipeline closes the cache exactly on the successful
paths - the normal completion and the constant-False dry-run early return.
On every raising path (invalid permalink, empty single-mode thread, a
search, fetch or post failure) the run terminates without calling
Cache.close, because the source has no finally block around the raise
statements. -/
theorem c2_close_iff_success (env : SlackEnv) (st : PipeSettings) (d : Option Bool)
    (perm : Option String) (s0 : RunState) (h0 : s0.closed = false) :
    ((run_pipeline env st d perm s0).2.closed = true ↔
      (run_pipeline env st d perm s0).1 = .ok ()) := by
  cases perm with
  | some plink =>
    cases hp : parse_permalink plink with
    | none => simp [run_pipeline, hp, h0]
    | some pr =>
      obtain ⟨ch, mts⟩ := pr
      cases hf : env.fetch ch mts with
      | error e => simp [run_pipeline, hp, hf, h0]
      | ok msgs =>
        by_cases hm : msgs.isEmpty
        · simp [run_pipeline, hp, hf, hm, h0]
        · simp only [run_pipeline, hp, hf, hm, Bool.false_eq_true, if_false]
          exact mainPhase_close_iff env st _ s0 h0
  | none =>
    cases hs : env.search st.search_query st.search_limit with
    | error e => simp [run_pipeline, hs, h0]
    | ok ms =>
      cases hw : windowThreads env st ms with
      | error e => simp [run_pipeline, hs, hw, Bool.false_and, h0]
      | ok ths =>
        simp only [run_pipeline, hs, Bool.false_and, Bool.false_eq_true, if_false, hw]
        exact mainPhase_close_iff env st ths s0 h0

/-- Witness for C2: on a concrete successful window run the equivalence is
satisfied (the run succeeds and the cache is closed). -/
theorem c2_close_iff_success_witness :
    ((run_pipeline envW stW none none (freshState [])).2.closed = true ↔
      (run_pipeline envW stW none none (freshState [])).1 = .ok ()) :=
  c2_close_iff_success envW stW none none (freshState []) rfl

/-- Counterexample for C2 as stated: in single-thread mode with an
unparseable permalink the run aborts with the explicit error and the cache
is not closed, so Cache.close is not called unconditionally on that
early-exit path. -/
theorem c2_counterexample :
    (run_pipeline envW stW none (some "not-a-permalink") (freshState [])).1 =
      .error "Invalid permalink format: not-a-permalink" ∧
    (run_pipeline envW stW none (some "not-a-permalink") (freshState [])).2.closed = false :=
  ⟨rfl, rfl⟩

/-- C1 (amended): running the pipeline twice in window mode over the same
environment, with pairwise-distinct discovered thread roots, such that the
thread-summary entry of a thread deserialises to a NON-EMPTY block list at
the start of the second run, makes both runs use that same stored block
set verbatim for the thread and invokes the summarizer at most once in
total for it.  (An entry holding an empty block list is treated as a cache
miss and re-summarised, which is the counterexample to the claim as
stated.) -/
theorem c1_cached_summary_idempotence
    (env : SlackEnv) (st : PipeSettings) (c0 : List (String × List Json))
    (d1 d2 : Option Bool) (ts0 : List Thread) (t : Thread) (v : List Json)
    (hdisc : discoveredThreads env st = .ok ts0)
    (ht : t ∈ truncThreads st ts0)
    (hnodup : ((truncThreads st ts0).map (fun u => u.thread_ts)).Nodup)
    (hentry : lookupCache (run_pipeline env st d1 none (freshState c0)).2.cache
        (summaryKey t.thread_ts) = some v)
    (hne : v ≠ []) :
    lookupCache (run_pipeline env st d2 none
        (freshState (run_pipeline env st d1 none (freshState c0)).2.cache)).2.usedLog
        t.thread_ts = some v ∧
    lookupCache (run_pipeline env st d1 none (freshState c0)).2.usedLog t.thread_ts =
      some v ∧
    (run_pipeline env st d1 none (freshState c0)).2.summarizeLog.count t.thread_ts +
      (run_pipeline env st d2 none
        (freshState (run_pipeline env st d1 none (freshState c0)).2.cache)).2.summarizeLog.count
        t.thread_ts ≤ 1 := by
  obtain ⟨b2, bs2, rfl⟩ : ∃ b2 bs2, v = b2 :: bs2 := by
    cases v with
    | nil => exact absurd rfl hne
    | cons x xs => exact ⟨x, xs, rfl⟩
  have e1 := run_pipeline_window_eq env st d1 (freshState c0) hdisc
  have hms1 := mainPhase_state env st ts0 (freshState c0)
  have hcache1 : (run_pipeline env st d1 none (freshState c0)).2.cache =
      (enrich env st (truncThreads st ts0) (freshState c0) []).2.cache := by
    rw [e1]; exact hms1.1
  have hused1 : (run_pipeline env st d1 none (freshState c0)).2.usedLog =
      (enrich env st (truncThreads st ts0) (freshState c0) []).2.usedLog := by
    rw [e1]; exact hms1.2.1
  have hsumm1 : (run_pipeline env st d1 none (freshState c0)).2.summarizeLog =
      (enrich env st (truncThreads st ts0) (freshState c0) []).2.summarizeLog := by
    rw [e1]; exact hms1.2.2.1
  have hspec1 := enrich_spec env st (truncThreads st ts0) (freshState c0) [] t ht hnodup
    (by intro e he; simp [freshState] at he)
  have hentryE : lookupCache
      (enrich env st (truncThreads st ts0) (freshState c0) []).2.cache
      (summaryKey t.thread_ts) = some (b2 :: bs2) := by
    rw [← hcache1]; exact hentry
  -- second run
  have e2 := run_pipeline_window_eq env st d2
    (freshState (run_pipeline env st d1 none (freshState c0)).2.cache) hdisc
  have hms2 := mainPhase_state env st ts0
    (freshState (run_pipeline env st d1 none (freshState c0)).2.cache)
  have hspec2 := enrich_spec env st (truncThreads st ts0)
    (freshState (run_pipeline env st d1 none (freshState c0)).2.cache) [] t ht hnodup
    (by intro e he; simp [freshState] at he)
  obtain ⟨hC2, hU2, hS2⟩ := hspec2.1 b2 bs2 hentry
  have hused2 : (run_pipeline env st d2 none
      (freshState (run_pipeline env st d1 none (freshState c0)).2.cache)).2.usedLog =
      (enrich env st (truncThreads st ts0)
        (freshState (run_pipeline env st d1 none (freshState c0)).2.cache) []).2.usedLog := by
    rw [e2]; exact hms2.2.1
  have hsumm2 : (run_pipeline env st d2 none
      (freshState (run_pipeline env st d1 none (freshState c0)).2.cache)).2.summarizeLog =
      (enrich env st (truncThreads st ts0)
        (freshState (run_pipeline env st d1 none (freshState c0)).2.cache) []).2.summarizeLog := by
    rw [e2]; exact hms2.2.2.1
  -- first-run facts by cases on the initial entry
  rcases hc0 : lookupCache (freshState c0).cache (summaryKey t.thread_ts) with _ | ⟨_ | ⟨b, bs⟩⟩
  · obtain ⟨hC1, hU1, hS1⟩ := hspec1.2 (by rw [hc0]; rfl)
    have hv : summOut env t = b2 :: bs2 := by
      have := hC1.symm.trans hentryE
      exact Option.some.inj this
    refine ⟨?_, ?_, ?_⟩
    · rw [hused2]; exact hU2
    · rw [hused1, ← hv]; exact hU1
    · rw [hsumm1, hsumm2, hS1, hS2]; simp [freshState]
  · obtain ⟨hC1, hU1, hS1⟩ := hspec1.2 (by rw [hc0]; rfl)
    have hv : summOut env t = b2 :: bs2 := by
      have := hC1.symm.trans hentryE
      exact Option.some.inj this
    refine ⟨?_, ?_, ?_⟩
    · rw [hused2]; exact hU2
    · rw [hused1, ← hv]; exact hU1
    · rw [hsumm1, hsumm2, hS1, hS2]; simp [freshState]
  · obtain ⟨hC1, hU1, hS1⟩ := hspec1.1 b bs hc0
    have hv : (b :: bs : List Json) = b2 :: bs2 := by
      have := hC1.symm.trans hentryE
      exact Option.some.inj this
    refine ⟨?_, ?_, ?_⟩
    · rw [hused2]; exact hU2
    · rw [hused1, ← hv]; exact hU1
    · rw [hsumm1, hsumm2, hS1, hS2]; simp [freshState]

/-- Witness for C1: in a concrete two-run execution over envW the cached
non-empty summary is reused, the summary block sets of both runs agree,
and the summarizer ran once in total. -/
theorem c1_cached_summary_idempotence_witness :
    lookupCache (run_pipeline envW stW none none
        (freshState (run_pipeline envW stW none none (freshState [])).2.cache)).2.usedLog
        "100" = some [okBlock] ∧
    lookupCache (run_pipeline envW stW none none (freshState [])).2.usedLog "100" =
      some [okBlock] ∧
    (run_pipeline envW stW none none (freshState [])).2.summarizeLog.count "100" +
      (run_pipeline envW stW none none
        (freshState (run_pipeline envW stW none none (freshState [])).2.cache)).2.summarizeLog.count
        "100" ≤ 1 :=
  c1_cached_summary_idempotence envW stW [] none none [tW] tW [okBlock] rfl
    ((by rfl : truncThreads stW [tW] = [tW]) ▸ List.mem_singleton_self tW)
    (by rw [show (truncThreads stW [tW]).map (fun u => u.thread_ts) = ["100"] from rfl]
        decide)
    rfl (List.cons_ne_nil _ _)

/-- Counterexample for C1 as stated: with a summarizer that returns an
empty block list, the first run stores an (unexpired) thread-summary entry
that exists on the second run, yet the summarizer is invoked twice in
total - the stored empty set is not reused. -/
theorem c1_counterexample :
    (lookupCache (run_pipeline envE stW none none (freshState [])).2.cache
      (summaryKey "100")).isSome = true ∧
    (run_pipeline envE stW none none (freshState [])).2.summarizeLog.count "100" +
      (run_pipeline envE stW none none
        (freshState (run_pipeline envE stW none none (freshState [])).2.cache)).2.summarizeLog.count
        "100" = 2 :=
  ⟨rfl, rfl⟩

/-- C9: a stored thread-summary entry that deserialises to the empty block
list is treated as a cache miss: the run invokes the summarizer for the
thread and uses (and logs) the fresh summarizer output rather than the
cached empty set. -/
theorem c9_empty_cache_entry_miss
    (env : SlackEnv) (st : PipeSettings) (c0 : List (String × List Json))
    (d : Option Bool) (ts0 : List Thread) (t : Thread)
    (hdisc : discoveredThreads env st = .ok ts0)
    (ht : t ∈ truncThreads st ts0)
    (hnodup : ((truncThreads st ts0).map (fun u => u.thread_ts)).Nodup)
    (hempty : lookupCache c0 (summaryKey t.thread_ts) = some []) :
    lookupCache (run_pipeline env st d none (freshState c0)).2.usedLog t.thread_ts =
      some (summOut env t) ∧
    (run_pipeline env st d none (freshState c0)).2.summarizeLog.count t.thread_ts = 1 := by
  have e1 := run_pipeline_window_eq env st d (freshState c0) hdisc
  have hms1 := mainPhase_state env st ts0 (freshState c0)
  have hspec1 := enrich_spec env st (truncThreads st ts0) (freshState c0) [] t ht hnodup
    (by intro e he; simp [freshState] at he)
  obtain ⟨_, hU1, hS1⟩ := hspec1.2
    (by have h2 : lookupCache (freshState c0).cache (summaryKey t.thread_ts) = some [] := hempty
        rw [h2]; rfl)
  constructor
  · rw [e1, hms1.2.1]; exact hU1
  · rw [e1, hms1.2.2.1, hS1]; simp [freshState]

/-- Witness for C9: with a concrete stored empty entry the summarizer runs
once and its output is the set the run uses. -/
theorem c9_empty_cache_entry_miss_witness :
    lookupCache (run_pipeline envW stW none none
        (freshState [("thread-summary:100", [])])).2.usedLog "100" =
      some (summOut envW tW) ∧
    (run_pipeline envW stW none none
        (freshState [("thread-summary:100", [])])).2.summarizeLog.count "100" = 1 :=
  c9_empty_cache_entry_miss envW stW [("thread-summary:100", [])] none [tW] tW rfl
    ((by rfl : truncThreads stW [tW] = [tW]) ▸ List.mem_singleton_self tW)
    (by rw [show (truncThreads stW [tW]).map (fun u => u.thread_ts) = ["100"] from rfl]
        decide)
    rfl

/- ===================== C3: placeholder filtering ===================== -/

/-- C3 (amended): a Summary Block Set whose collected lowercased block
text contains the phrase about no thread messages contributes no blocks
to the digest; a block set matching NONE of the four placeholder patterns
(not merely lacking that one phrase) has its blocks appended followed by
the View thread context block - only for a truthy resolved permalink -
and a divider block.  (A set lacking the phrase can still be filtered
when it matches one of the other patterns, which is the counterexample to
the claim as stated.) -/
theorem c3_placeholder_filtering :
    (∀ (blocks : List Json) (permalink : Option String),
       containsSub (collectText blocks) "no thread messages provided beyond the title" = true →
       threadContribution blocks permalink = []) ∧
    (∀ (blocks : List Json) (permalink : Option String),
       is_placeholder_thread blocks = false →
       threadContribution blocks permalink =
         blocks ++ permalinkPart permalink ++ [dividerBlock]) := by
  constructor
  · intro blocks permalink h
    have hp : is_placeholder_thread blocks = true := by
      refine List.any_eq_true.mpr
        ⟨"no thread messages provided beyond the title", ?_, h⟩
      simp [placeholder_patterns]
    simp [threadContribution, hp]
  · intro blocks permalink h
    simp [threadContribution, h]

/-- Witness for C3: a concrete placeholder set contributes nothing, and a
concrete non-placeholder set is included with its trailing divider. -/
theorem c3_placeholder_filtering_witness :
    threadContribution phBlocks (some "https://x.example/p1") = [] ∧
    threadContribution [okBlock] (some "https://x.example/p1") =
      [okBlock] ++ permalinkPart (some "https://x.example/p1") ++ [dividerBlock] :=
  ⟨c3_placeholder_filtering.1 phBlocks (some "https://x.example/p1") (by decide),
   c3_placeholder_filtering.2 [okBlock] (some "https://x.example/p1") (by decide)⟩

/-- Counterexample for C3 as stated: a block set whose text lacks the
no-thread-messages phrase but contains another placeholder pattern is
still excluded from the digest, not appended with its link and divider. -/
theorem c3_counterexample :
    containsSub (collectText c3Blocks) "no thread messages provided beyond the title" = false ∧
    threadContribution c3Blocks (some "https://x.example/p1") = [] ∧
    c3Blocks ++ permalinkPart (some "https://x.example/p1") ++ [dividerBlock] ≠ [] := by
  refine ⟨by decide, rfl, ?_⟩
  intro h
  simp [c3Blocks] at h

/- ===================== C4: minimum-size filter ===================== -/

/-- C4: window-mode discovery discards every thread whose fetched message
sequence has fewer than 2 messages, while single-permalink mode still
produces the candidate for a one-message thread and aborts only on an
empty thread. -/
theorem c4_min_size_filter :
    (∀ (env : SlackEnv) (st : PipeSettings) (ms : List Json) (threads : List Thread),
       windowThreads env st ms = .ok threads →
       ∀ t ∈ threads, 2 ≤ t.messages.length) ∧
    (∀ (env : SlackEnv) (st : PipeSettings) (d : Option Bool) (plink ch mts : String)
       (m : Json) (s0 : RunState),
       parse_permalink plink = some (ch, mts) →
       env.fetch ch mts = .ok [m] →
       run_pipeline env st d (some plink) s0 = mainPhase env st [⟨ch, mts, [m]⟩] s0) ∧
    (∀ (env : SlackEnv) (st : PipeSettings) (d : Option Bool) (plink ch mts : String)
       (s0 : RunState),
       parse_permalink plink = some (ch, mts) →
       env.fetch ch mts = .ok [] →
       run_pipeline env st d (some plink) s0 =
         (.error ("No messages found for permalink: " ++ plink), s0)) := by
  refine ⟨?_, ?_, ?_⟩
  · intro env st ms
    induction ms with
    | nil =>
      intro threads h t ht
      simp only [windowThreads] at h
      cases h
      simp at ht
    | cons item rest ih =>
      intro threads h t ht
      simp only [windowThreads] at h
      cases hcl : classifyItem env st item with
      | skip => rw [hcl] at h; exact ih threads h t ht
      | err e => rw [hcl] at h; cases h
      | fetchThread cid ts =>
        simp only [hcl] at h
        cases hf : env.fetch cid ts with
        | error e => simp only [hf] at h; cases h
        | ok msgs =>
          simp only [hf] at h
          by_cases hlen : msgs.length < 2
          · simp only [hlen, if_true] at h; exact ih threads h t ht
          · simp only [hlen, if_false] at h
            cases hr : windowThreads env st rest with
            | error e => rw [hr] at h; simp [Except.map, Functor.map] at h
            | ok tl =>
              rw [hr] at h
              simp only [Functor.map, Except.map] at h
              cases h
              rcases List.mem_cons.mp ht with heq | htl
              · subst heq
                show 2 ≤ msgs.length
                omega
              · exact ih tl hr t htl
  · intro env st d plink ch mts m s0 hp hf
    simp [run_pipeline, hp, hf]
  · intro env st d plink ch mts s0 hp hf
    simp [run_pipeline, hp, hf]

/-- Witness for C4: the concrete window discovery keeps only the
two-message thread, and single mode keeps a lone post but aborts on an
empty thread. -/
theorem c4_min_size_filter_witness :
    2 ≤ tW.messages.length ∧
    run_pipeline envS1 stW none
        (some "https://w.slack.com/archives/C12345678/p1234567890123456") (freshState []) =
      mainPhase envS1 stW [⟨"C12345678", "1234567890.123456", [msgA]⟩] (freshState []) ∧
    run_pipeline envS0 stW none
        (some "https://w.slack.com/archives/C12345678/p1234567890123456") (freshState []) =
      (.error ("No messages found for permalink: " ++
         "https://w.slack.com/archives/C12345678/p1234567890123456"), freshState []) :=
  ⟨c4_min_size_filter.1 envW stW [mW] [tW] rfl tW (List.mem_singleton_self tW),
   c4_min_size_filter.2.1 envS1 stW none _ "C12345678" "1234567890.123456" msgA
      (freshState []) rfl rfl,
   c4_min_size_filter.2.2 envS0 stW none _ "C12345678" "1234567890.123456"
      (freshState []) rfl rfl⟩

/- ===================== C5: search pagination ===================== -/

/-- Full characterisation of the search loop over a total platform: it
returns the filtered accumulation of the pages it requested, requests at
most the given fuel, requests at all only below the limit, and issues each
non-final request only because the count was still below the limit and the
platform still reported further pages. -/
theorem searchGo_total (pages : Nat → SearchPage) (isHuman : Json → Bool) (limit : Nat) :
    ∀ (fuel page : Nat) (acc0 : List Json), ∃ n,
      searchGo (fun p => .ok (pages p)) isHuman limit fuel page acc0 =
        .ok (acc0 ++ segAcc pages isHuman page n, n) ∧
      n ≤ fuel ∧
      (0 < n → acc0.length < limit) ∧
      (∀ i, i + 1 < n → (acc0 ++ segAcc pages isHuman page (i + 1)).length < limit ∧
        page + i < (pages (page + i)).totalPages) := by
  intro fuel
  induction fuel with
  | zero =>
    intro page acc0
    refine ⟨0, by simp [searchGo, segAcc], Nat.le_refl 0, ?_, ?_⟩
    · intro h; omega
    · intro i hi; omega
  | succ fuel ihf =>
    intro page acc0
    by_cases hl : acc0.length < limit
    · by_cases hb : (pages page).totalPages ≤ page
      · refine ⟨1, ?_, ?_, fun _ => hl, ?_⟩
        · simp [searchGo, hl, hb, segAcc]
        · omega
        · intro i hi; omega
      · obtain ⟨n, he, hn, h0, hi⟩ := ihf (page + 1) (acc0 ++ (pages page).pageMatches.filter isHuman)
        refine ⟨n + 1, ?_, by omega, fun _ => hl, ?_⟩
        · simp only [searchGo, hl, if_true, hb, if_false, he, Except.map]
          simp [segAcc, List.append_assoc]
        · intro i hicond
          cases i with
          | zero =>
            constructor
            · have hpos : 0 < n := by omega
              have := h0 hpos
              simpa [segAcc] using this
            · have := Nat.not_le.mp hb
              simpa using this
          | succ i2 =>
            have hrec := hi i2 (by omega)
            constructor
            · have := hrec.1
              have harr : acc0 ++ (pages page).pageMatches.filter isHuman ++
                  segAcc pages isHuman (page + 1) (i2 + 1) =
                  acc0 ++ segAcc pages isHuman page (i2 + 2) := by
                simp [segAcc, List.append_assoc]
              rw [harr] at this
              exact this
            · have := hrec.2
              have heq : page + 1 + i2 = page + (i2 + 1) := by omega
              rw [heq] at this
              exact this
    · refine ⟨0, by simp [searchGo, hl, segAcc], Nat.zero_le _, ?_, ?_⟩
      · intro h; omega
      · intro i hi; omega

/-- C5: for every total platform, human filter and limit, search_messages
accumulates the human-filtered matches of the requested pages in order,
truncates the result to at most the limit, requests at most the hard cap
of 20 pages, and keeps requesting a further page only while the platform
reports more pages and the accumulated count is below the limit. -/
theorem c5_search_pagination (pages : Nat → SearchPage) (isHuman : Json → Bool)
    (limit : Nat) :
    ∃ n, search_messages (fun p => .ok (pages p)) isHuman limit =
        .ok ((segAcc pages isHuman 1 n).take limit) ∧
      ((segAcc pages isHuman 1 n).take limit).length ≤ limit ∧
      n ≤ 20 ∧
      (∀ i, i + 1 < n → (segAcc pages isHuman 1 (i + 1)).length < limit ∧
        1 + i < (pages (1 + i)).totalPages) := by
  obtain ⟨n, he, hn, _, hi⟩ := searchGo_total pages isHuman limit 20 1 []
  refine ⟨n, ?_, ?_, hn, ?_⟩
  · unfold search_messages
    rw [he]
    simp [Except.map]
  · rw [List.length_take]
    exact Nat.min_le_left _ _
  · intro i h
    have := hi i h
    simpa using this

/- ===================== C6: summarizer recovery ===================== -/

/-- C6: summarize is total over the model output (and so never raises),
and after stripping a fenced-code wrapper its result is exactly the
three-way dispatch of the claim: a parsed sequence is returned as-is, a
parsed single object is wrapped into a one-element sequence, and every
other outcome (failed parse or a scalar) yields the synthesised two-block
fallback of a date header and a section with the trimmed raw text.  The
two string equations exhibit the wrapper stripping. -/
theorem c6_summarize_recovery :
    (∀ (parse : String → Option Json) (timestamp raw : String),
      summarize parse timestamp raw =
        match parse (strip_code_fences raw) with
        | some (.arr xs) => xs
        | some (.obj kvs) => [.obj kvs]
        | _ => [fallbackHeader timestamp, fallbackSection raw]) ∧
    strip_code_fences ("```json" ++ "\n" ++ "[1, 2]" ++ "\n" ++ "```") = "[1, 2]" ∧
    strip_code_fences "  plain text  " = "plain text" := by
  refine ⟨?_, by decide, by decide⟩
  intro parse timestamp raw
  unfold summarize parse_blocks
  rfl

/- ===================== C7: post recovery policy ===================== -/

/-- C7 (amended): post_blocks with an empty block sequence succeeds with
no platform call; a successful first post makes exactly one call; a
not-in-channel error triggers a self-join and exactly one retry; a failure
of the join or of the retried post propagates as a fatal error whose
message carries the channel id; any OTHER post error propagates as a fatal
error carrying the platform error text - which, contrary to the claim as
stated, does not include the channel id.  post_blocks_in_thread behaves
identically up to its distinct generic message. -/
theorem c7_post_recovery :
    (∀ (pe : PostEnv) (ch : String), post_blocks pe ch [] = (.ok (), 0)) ∧
    (∀ (pe : PostEnv) (ch : String) (blocks : List Json), blocks ≠ [] →
       pe.post1 = .ok () → post_blocks pe ch blocks = (.ok (), 1)) ∧
    (∀ (pe : PostEnv) (ch : String) (blocks : List Json) (e : SlackErr), blocks ≠ [] →
       pe.post1 = .error e → e.errorCode = some "not_in_channel" →
       pe.joinAttempt = .ok () → pe.post2 = .ok () →
       post_blocks pe ch blocks = (.ok (), 2)) ∧
    (∀ (pe : PostEnv) (ch : String) (blocks : List Json) (e j : SlackErr), blocks ≠ [] →
       pe.post1 = .error e → e.errorCode = some "not_in_channel" →
       pe.joinAttempt = .error j →
       post_blocks pe ch blocks = (.error (joinFailMsg ch j.msg), 1) ∧
         containsSub (joinFailMsg ch j.msg) ch = true) ∧
    (∀ (pe : PostEnv) (ch : String) (blocks : List Json) (e j : SlackErr), blocks ≠ [] →
       pe.post1 = .error e → e.errorCode = some "not_in_channel" →
       pe.joinAttempt = .ok () → pe.post2 = .error j →
       post_blocks pe ch blocks = (.error (joinFailMsg ch j.msg), 2) ∧
         containsSub (joinFailMsg ch j.msg) ch = true) ∧
    (∀ (pe : PostEnv) (ch : String) (blocks : List Json) (e : SlackErr), blocks ≠ [] →
       pe.post1 = .error e → e.errorCode ≠ some "not_in_channel" →
       post_blocks pe ch blocks = (.error ("Slack post failed: " ++ e.msg), 1)) ∧
    (∀ (pe : PostEnv) (ch : String) (blocks : List Json) (e : SlackErr), blocks ≠ [] →
       pe.post1 = .error e → e.errorCode ≠ some "not_in_channel" →
       post_blocks_in_thread pe ch blocks =
         (.error ("Slack post in thread failed: " ++ e.msg), 1)) := by
  have hmsg : ∀ (ch m : String), containsSub (joinFailMsg ch m) ch = true := by
    intro ch m
    have := containsSub_append_middle "Slack post failed: Could not join channel " ch
      (". Please invite the bot to the channel. Error: " ++ m)
    unfold joinFailMsg
    rw [String.append_assoc]
    exact this
  refine ⟨?_, ?_, ?_, ?_, ?_, ?_, ?_⟩
  · intro pe ch; rfl
  · intro pe ch blocks hb hp
    cases blocks with
    | nil => exact absurd rfl hb
    | cons x xs => simp [post_blocks, hp]
  · intro pe ch blocks e hb hp hc hj hr
    cases blocks with
    | nil => exact absurd rfl hb
    | cons x xs => simp [post_blocks, hp, hc, hj, hr]
  · intro pe ch blocks e j hb hp hc hj
    cases blocks with
    | nil => exact absurd rfl hb
    | cons x xs => exact ⟨by simp [post_blocks, hp, hc, hj], hmsg ch j.msg⟩
  · intro pe ch blocks e j hb hp hc hj hr
    cases blocks with
    | nil => exact absurd rfl hb
    | cons x xs => exact ⟨by simp [post_blocks, hp, hc, hj, hr], hmsg ch j.msg⟩
  · intro pe ch blocks e hb hp hc
    cases blocks with
    | nil => exact absurd rfl hb
    | cons x xs => simp [post_blocks, hp, hc]
  · intro pe ch blocks e hb hp hc
    cases blocks with
    | nil => exact absurd rfl hb
    | cons x xs => simp [post_blocks_in_thread, hp, hc]

/-- Witness for C7: the five post_blocks behaviours and the in-thread
variant, each at a concrete post environment. -/
theorem c7_post_recovery_witness :
    post_blocks peOk "C42" [] = (.ok (), 0) ∧
    post_blocks peOk "C42" [dividerBlock] = (.ok (), 1) ∧
    post_blocks peNotIn "C42" [dividerBlock] = (.ok (), 2) ∧
    (post_blocks peJoinFail "C42" [dividerBlock] =
        (.error (joinFailMsg "C42" "join failed"), 1) ∧
      containsSub (joinFailMsg "C42" "join failed") "C42" = true) ∧
    (post_blocks peRetryFail "C42" [dividerBlock] =
        (.error (joinFailMsg "C42" "retry failed"), 2) ∧
      containsSub (joinFailMsg "C42" "retry failed") "C42" = true) ∧
    post_blocks peBad "C42" [dividerBlock] =
      (.error ("Slack post failed: " ++ "ratelimited"), 1) ∧
    post_blocks_in_thread peBad "C42" [dividerBlock] =
      (.error ("Slack post in thread failed: " ++ "ratelimited"), 1) :=
  ⟨c7_post_recovery.1 peOk "C42",
   c7_post_recovery.2.1 peOk "C42" [dividerBlock] (List.cons_ne_nil _ _) rfl,
   c7_post_recovery.2.2.1 peNotIn "C42" [dividerBlock] nicErr (List.cons_ne_nil _ _)
     rfl rfl rfl rfl,
   c7_post_recovery.2.2.2.1 peJoinFail "C42" [dividerBlock] nicErr
     ⟨some "is_archived", "join failed"⟩ (List.cons_ne_nil _ _) rfl rfl rfl,
   c7_post_recovery.2.2.2.2.1 peRetryFail "C42" [dividerBlock] nicErr
     ⟨some "fatal_error", "retry failed"⟩ (List.cons_ne_nil _ _) rfl rfl rfl rfl,
   c7_post_recovery.2.2.2.2.2.1 peBad "C42" [dividerBlock]
     ⟨some "ratelimited", "ratelimited"⟩ (List.cons_ne_nil _ _) rfl (by simp),
   c7_post_recovery.2.2.2.2.2.2 peBad "C42" [dividerBlock]
     ⟨some "ratelimited", "ratelimited"⟩ (List.cons_ne_nil _ _) rfl (by simp)⟩

/-- Counterexample for C7 as stated: a post failure other than
not-in-channel (here a rate limit) propagates with a message that does not
carry the channel id. -/
theorem c7_counterexample :
    (post_blocks peBad "C42" [dividerBlock]).1 = .error "Slack post failed: ratelimited" ∧
    containsSub "Slack post failed: ratelimited" "C42" = false :=
  ⟨rfl, by decide⟩

/- ===================== helper lemmas: permalink regex model ===================== -/

theorem dropLit_append (p cs : List Char) : dropLit p (p ++ cs) = some cs := by
  induction p with
  | nil => rfl
  | cons a ps ih => simp [dropLit, ih]

theorem dropLit_eq_append : ∀ {p l r : List Char}, dropLit p l = some r → l = p ++ r := by
  intro p
  induction p with
  | nil =>
    intro l r h
    simp [dropLit] at h
    simp [h]
  | cons a ps ih =>
    intro l r h
    cases l with
    | nil => simp [dropLit] at h
    | cons c cs =>
      simp only [dropLit] at h
      by_cases hc : c = a
      · subst hc
        simp at h
        have := ih h
        simp [this]
      · simp [hc] at h

theorem takeWhile_app {p : Char → Bool} :
    ∀ (l1 : List Char) (a : Char) (l2 : List Char),
      (∀ c ∈ l1, p c = true) → p a = false →
      (l1 ++ a :: l2).takeWhile p = l1 := by
  intro l1
  induction l1 with
  | nil => intro a l2 _ ha; simp [List.takeWhile_cons, ha]
  | cons c cs ih =>
    intro a l2 h ha
    have hc : p c = true := h c (by simp)
    simp only [List.cons_append, List.takeWhile_cons, hc, if_true]
    rw [ih a l2 (fun x hx => h x (by simp [hx])) ha]

theorem dropWhile_app {p : Char → Bool} :
    ∀ (l1 : List Char) (a : Char) (l2 : List Char),
      (∀ c ∈ l1, p c = true) → p a = false →
      (l1 ++ a :: l2).dropWhile p = a :: l2 := by
  intro l1
  induction l1 with
  | nil => intro a l2 _ ha; simp [List.dropWhile_cons, ha]
  | cons c cs ih =>
    intro a l2 h ha
    have hc : p c = true := h c (by simp)
    simp only [List.cons_append, List.dropWhile_cons, hc, if_true]
    exact ih a l2 (fun x hx => h x (by simp [hx])) ha

theorem dropLit_slash_p (x : List Char) : dropLit ['/', 'p'] ('/' :: 'p' :: x) = some x := rfl

theorem matchArchAt_of_shape (chan ds post : List Char)
    (hchan : chan ≠ []) (hcc : ∀ c ∈ chan, isChanChar c = true)
    (hds : ds ≠ []) (hdd : ∀ c ∈ ds, c.isDigit = true) :
    matchArchAt (archLit ++ (chan ++ ('/' :: 'p' :: (ds ++ post)))) ≠ none := by
  have hslash : isChanChar '/' = false := by decide
  have hce : chan.isEmpty = false := by
    cases chan with
    | nil => exact absurd rfl hchan
    | cons _ _ => rfl
  cases ds with
  | nil => exact absurd rfl hds
  | cons d ds2 =>
    have htake := takeWhile_app chan '/' ('p' :: ((d :: ds2) ++ post)) hcc hslash
    have hdrop := dropWhile_app chan '/' ('p' :: ((d :: ds2) ++ post)) hcc hslash
    have hd : d.isDigit = true := hdd d (by simp)
    unfold matchArchAt
    rw [dropLit_append, Option.some_bind, htake, hdrop, hce]
    simp only [Bool.false_eq_true, if_false, dropLit_slash_p, Option.some_bind,
      List.cons_append, List.takeWhile_cons, hd, if_true, List.isEmpty_cons]
    exact Option.some_ne_none _

theorem searchArch_ne_none : ∀ (pre u : List Char), matchArchAt u ≠ none →
    searchArch (pre ++ u) ≠ none := by
  intro pre
  induction pre with
  | nil =>
    intro u h
    cases u with
    | nil => exact absurd rfl h
    | cons c cs =>
      simp only [List.nil_append, searchArch]
      cases hm : matchArchAt (c :: cs) with
      | none => exact absurd hm h
      | some r => simp
  | cons a pre2 ih =>
    intro u h
    simp only [List.cons_append, searchArch]
    cases hm : matchArchAt (a :: (pre2 ++ u)) with
    | none => exact ih u h
    | some r => simp

theorem matchArchAt_shape : ∀ {cs chan ds : List Char},
    matchArchAt cs = some (chan, ds) →
    ∃ post, cs = archLit ++ (chan ++ ('/' :: 'p' :: (ds ++ post))) ∧
      chan ≠ [] ∧ (∀ c ∈ chan, isChanChar c = true) ∧
      ds ≠ [] ∧ (∀ c ∈ ds, c.isDigit = true) := by
  intro cs chan ds h
  unfold matchArchAt at h
  cases h1 : dropLit archLit cs with
  | none => rw [h1, Option.none_bind] at h; cases h
  | some rest =>
    rw [h1, Option.some_bind] at h
    by_cases he : (rest.takeWhile isChanChar).isEmpty
    · rw [if_pos he] at h; cases h
    · rw [if_neg he] at h
      cases h2 : dropLit ['/', 'p'] (rest.dropWhile isChanChar) with
      | none => rw [h2, Option.none_bind] at h; cases h
      | some rest2 =>
        rw [h2, Option.some_bind] at h
        by_cases he2 : (rest2.takeWhile Char.isDigit).isEmpty
        · rw [if_pos he2] at h; cases h
        · rw [if_neg he2] at h
          simp only [Option.some.injEq, Prod.mk.injEq] at h
          obtain ⟨h3, h4⟩ := h
          refine ⟨rest2.dropWhile Char.isDigit, ?_, ?_, ?_, ?_, ?_⟩
          · have hcs : cs = archLit ++ rest := dropLit_eq_append h1
            have hrest : rest = rest.takeWhile isChanChar ++ rest.dropWhile isChanChar :=
              (List.takeWhile_append_dropWhile isChanChar rest).symm
            have hdw : rest.dropWhile isChanChar = '/' :: 'p' :: rest2 := by
              have := dropLit_eq_append h2
              simpa using this
            have hrest2 : rest2 = rest2.takeWhile Char.isDigit ++ rest2.dropWhile Char.isDigit :=
              (List.takeWhile_append_dropWhile Char.isDigit rest2).symm
            rw [hcs, hrest, hdw, ← h3, ← h4]
            rw [← hrest2]
          · intro hc
            rw [h3, hc] at he
            exact he rfl
          · intro c hc
            rw [← h3] at hc
            exact List.mem_takeWhile_imp hc
          · intro hc
            rw [h4, hc] at he2
            exact he2 rfl
          · intro c hc
            rw [← h4] at hc
            exact List.mem_takeWhile_imp hc

theorem searchArch_shape : ∀ {cs chan ds : List Char},
    searchArch cs = some (chan, ds) →
    ∃ pre post, cs = pre ++ (archLit ++ (chan ++ ('/' :: 'p' :: (ds ++ post)))) ∧
      chan ≠ [] ∧ (∀ c ∈ chan, isChanChar c = true) ∧
      ds ≠ [] ∧ (∀ c ∈ ds, c.isDigit = true) := by
  intro cs
  induction cs with
  | nil => intro chan ds h; simp [searchArch] at h
  | cons c cs2 ih =>
    intro chan ds h
    simp only [searchArch] at h
    cases hm : matchArchAt (c :: cs2) with
    | some r =>
      rw [hm] at h
      simp only [Option.some.injEq] at h
      subst h
      obtain ⟨post, heq, h1, h2, h3, h4⟩ := matchArchAt_shape hm
      exact ⟨[], post, by simpa using heq, h1, h2, h3, h4⟩
    | none =>
      rw [hm] at h
      obtain ⟨pre, post, heq, h1, h2, h3, h4⟩ := ih h
      exact ⟨c :: pre, post, by simp [heq], h1, h2, h3, h4⟩

/-- The matcher finds nothing exactly when the input lacks the
/archives/channel/p-digits shape. -/
theorem parse_permalink_none_iff (s : String) :
    parse_permalink s = none ↔ ¬ ShapePresent s := by
  constructor
  · intro h hS
    obtain ⟨pre, chan, ds, post, heq, h1, h2, h3, h4⟩ := hS
    have hm : matchArchAt (archLit ++ (chan ++ ('/' :: 'p' :: (ds ++ post)))) ≠ none :=
      matchArchAt_of_shape chan ds post h1 h2 h3 h4
    have hs2 : searchArch s.data ≠ none := by
      have hrw : s.data = pre ++ (archLit ++ (chan ++ ('/' :: 'p' :: (ds ++ post)))) := by
        rw [heq]; simp [List.append_assoc]
      rw [hrw]
      exact searchArch_ne_none pre _ hm
    unfold parse_permalink at h
    cases hsa : searchArch s.data with
    | none => exact hs2 hsa
    | some r =>
      obtain ⟨chan2, ds2⟩ := r
      rw [hsa] at h
      cases h
  · intro hn
    cases hsa : searchArch s.data with
    | none => simp [parse_permalink, hsa]
    | some r =>
      obtain ⟨chan, ds⟩ := r
      exact absurd (by
        obtain ⟨pre, post, heq, h1, h2, h3, h4⟩ := searchArch_shape hsa
        exact ⟨pre, chan, ds, post, by rw [heq]; simp [List.append_assoc], h1, h2, h3, h4⟩) hn

/-- C8: the canonical permalink parses to its channel id and the dotted
reconstruction of the 16-digit timestamp (first ten digits, dot, remaining
six), and an input returns the explicit no-match result exactly when it
lacks the /archives/channel/p-digits shape - in particular parsing never
raises, being a total function. -/
theorem c8_parse_permalink :
    parse_permalink "https://workspace.slack.com/archives/C12345678/p1234567890123456" =
      some ("C12345678", "1234567890.123456") ∧
    ∀ s : String, parse_permalink s = none ↔ ¬ ShapePresent s :=
  ⟨by decide, parse_permalink_none_iff⟩

/-- C10: parse_permalink succeeds on every input containing the
/archives/channel/p-digits shape with ANY non-empty digit run, and a run
of fewer than 11 digits yields a timestamp whose fractional part is empty
(the dot is always inserted after the first ten digits). -/
theorem c10_lenient_digit_count :
    (∀ s : String, ShapePresent s → (parse_permalink s).isSome = true) ∧
    parse_permalink "https://w.slack.com/archives/C1/p12345" = some ("C1", "12345.") := by
  constructor
  · intro s hS
    cases hp : parse_permalink s with
    | none => exact absurd hS ((parse_permalink_none_iff s).mp hp)
    | some r => rfl
  · decide

/-- Witness for C10: a five-digit suffix still parses. -/
theorem c10_lenient_digit_count_witness :
    (parse_permalink "https://w.slack.com/archives/C1/p12345").isSome = true :=
  c10_lenient_digit_count.1 "https://w.slack.com/archives/C1/p12345"
    ⟨"https://w.slack.com".data, ['C', '1'], ['1', '2', '3', '4', '5'], [],
     by decide, by decide, by decide, by decide, by decide⟩

end Firefighter
